import Mathlib

/-!
Verification of `joycontrol/command_line_interface.py` (Switch MIDI controller).

The development shallowly embeds the module: Python strings become `String`,
Python dicts (which preserve insertion order) become association lists,
floating-point durations and elapsed times are modelled as exact rationals,
and fallible code returns `Except`/`Option`.  The handful of Python string
primitives the module uses (`str.replace`, `str.split` with and without
`maxsplit`, substring membership, `int()`) are reimplemented below with the
semantics of CPython for the argument shapes that occur in the module
(in particular, non-empty separators and patterns, and quote-free command
strings for `shlex.split`).
-/

namespace SwitchMidi

/-- Model of Python `str.replace(pat, rep)` on character lists: replace every
non-overlapping occurrence of `pat`, scanning left to right.  The `fuel`
argument makes the recursion structural; it is instantiated with the length
of the subject string, which suffices because every step consumes at least
one character.  (Only non-empty patterns occur in the source module.) -/
def pyReplaceAux (pat rep : List Char) : Nat → List Char → List Char
  | 0, l => l
  | _ + 1, [] => []
  | fuel + 1, c :: rest =>
    if pat ≠ [] ∧ pat.isPrefixOf (c :: rest) then
      rep ++ pyReplaceAux pat rep fuel (List.drop (pat.length - 1) rest)
    else
      c :: pyReplaceAux pat rep fuel rest

/-- Model of Python `str.replace`. -/
def pyReplace (s pat rep : String) : String :=
  ⟨pyReplaceAux pat.data rep.data s.data.length s.data⟩

/-- Model of Python `str.split(sep, maxsplit)` on character lists.  `maxs` is
the number of splits still allowed; `acc` holds the current chunk reversed.
`fuel` makes the recursion structural. -/
def pySplitAux (sep : List Char) : Nat → Nat → List Char → List Char → List (List Char)
  | 0, _, acc, rest => [acc.reverse ++ rest]
  | _ + 1, _, acc, [] => [acc.reverse]
  | fuel + 1, maxs, acc, c :: rest =>
    if maxs ≠ 0 ∧ sep ≠ [] ∧ sep.isPrefixOf (c :: rest) then
      acc.reverse :: pySplitAux sep fuel (maxs - 1) [] (List.drop (sep.length - 1) rest)
    else
      pySplitAux sep fuel maxs (c :: acc) rest

/-- Model of Python `str.split(sep)` (no `maxsplit`). -/
def pySplitOn (s sep : String) : List String :=
  (pySplitAux sep.data (s.data.length + 1) (s.data.length + 1) [] s.data).map String.mk

/-- Model of Python `str.split(sep, maxsplit)`. -/
def pySplitMax (s sep : String) (maxs : Nat) : List String :=
  (pySplitAux sep.data (s.data.length + 1) maxs [] s.data).map String.mk

/-- Helper for substring membership: does `sub` occur in the list? -/
def pyContainsAux (sub : List Char) : List Char → Bool
  | [] => sub.isEmpty
  | l@(_ :: rest) => sub.isPrefixOf l || pyContainsAux sub rest

/-- Model of Python `sub in s` (substring membership). -/
def pyContains (sub s : String) : Bool :=
  pyContainsAux sub.data s.data

/-- Model of `shlex.split` for the inputs this module feeds it: command
strings without quote or escape characters.  On those, `shlex.split` is
whitespace splitting that drops empty tokens. -/
def pyShlexSplit (s : String) : List String :=
  (pySplitOn s " ").filter (fun t => t ≠ "")

/-- Digits of a decimal numeral to a natural number. -/
def digitsToNat (ds : List Char) : Nat :=
  ds.foldl (fun a c => a * 10 + (c.toNat - '0'.toNat)) 0

/-- Model of Python `int(s)` for decimal strings: surrounding whitespace is
ignored, an optional single sign precedes a non-empty digit run.  Returns
`none` where CPython raises `ValueError`.  (Underscore separators and
non-ASCII digits, which CPython also accepts, do not occur in this code's
inputs and are not modelled.) -/
def pyInt (s : String) : Option Int :=
  let cs := ((s.data.dropWhile Char.isWhitespace).reverse.dropWhile Char.isWhitespace).reverse
  match cs with
  | '-' :: ds =>
    if ds ≠ [] ∧ ds.all Char.isDigit then some (-(digitsToNat ds : Int)) else none
  | '+' :: ds =>
    if ds ≠ [] ∧ ds.all Char.isDigit then some ((digitsToNat ds : Int)) else none
  | ds =>
    if ds ≠ [] ∧ ds.all Char.isDigit then some ((digitsToNat ds : Int)) else none

example : pyReplace "hold a&&hold y" "hold" "release" = "release a&&release y" := by decide
example : pySplitOn "stick l up&&stick r up" "&&" = ["stick l up", "stick r up"] := by decide
example : pySplitMax "stick l h 3200" " " 2 = ["stick", "l", "h 3200"] := by decide
example : pyContains "stick" "hold b&&stick l center" = true := by decide
example : pyShlexSplit "stick l h 3200" = ["stick", "l", "h", "3200"] := by decide
example : pyInt "3200" = some 3200 := by decide
example : pyInt "-15" = some (-15) := by decide
example : pyInt "abc" = none := by decide
example : pyInt "" = none := by decide
example : ((4 : ℚ) / 100 - 1 / 100 = 3 / 100) := by norm_num
example : ¬ ((4 : ℚ) / 100 ≤ 0) := by norm_num

/-!
## The MIDI translator (`ControllerCLI.run`, lines 182–236)

Python dicts preserve insertion order, so the module-level hold buffer
`arlBuffer` is modelled as an association list: updating an existing key
keeps its position, a new key is appended, deletion removes the entry.
Floating-point seconds are modelled as exact rationals.
-/

/-- The module-level `midi_to_key` table (lines 15–25). -/
def midi_to_key (n : Nat) : Option String :=
  if n = 38 then some "hold a&&hold y"
  else if n = 48 then some "hold x"
  else if n = 42 then some "hold l&&hold zl"
  else if n = 36 then some "hold r&&hold zr"
  else if n = 51 then some "stick l h 3200&&stick r h 3200"
  else if n = 55 then some "stick l h 848&&stick r h 848"
  else if n = 45 then some "stick l up&&stick r up"
  else if n = 41 then some "stick l down&&stick r down"
  else if n = 6 then some "hold b&&stick l center"
  else if n = 5 then some "release b&&stick l center"
  else if n = 7 then some "stick l center"
  else none

/-- `midi_to_key.get(n, "")`: lookup with default `""`. -/
def midiToKeyD (n : Nat) : String :=
  (midi_to_key n).getD ""

/-- Does the ordered dict have an entry for key `k`? (`k in d.keys()`) -/
def dictHasKey (d : List (Nat × ℚ)) (k : Nat) : Bool :=
  d.any (fun kv => kv.1 == k)

/-- `d.get(k)`: value of the first entry with key `k`. -/
def dictLookup (d : List (Nat × ℚ)) (k : Nat) : Option ℚ :=
  (d.find? (fun kv => kv.1 == k)).map (fun kv => kv.2)

/-- `d[k] = v`: update in place if the key exists, else append. -/
def dictSet (d : List (Nat × ℚ)) (k : Nat) (v : ℚ) : List (Nat × ℚ) :=
  if d.any (fun kv => kv.1 == k) then
    d.map (fun kv => if kv.1 == k then (k, v) else kv)
  else
    d ++ [(k, v)]

/-- `del d[k]`. -/
def dictDel (d : List (Nat × ℚ)) (k : Nat) : List (Nat × ℚ) :=
  d.filter (fun kv => kv.1 != k)

/-- `for k in arlBuffer.keys(): arlBuffer[k] -= dtime` (lines 200–201). -/
def decBuffer (d : List (Nat × ℚ)) (dtime : ℚ) : List (Nat × ℚ) :=
  d.map (fun kv => (kv.1, kv.2 - dtime))

/-- A polled MIDI message, as far as the loop inspects it: `msg.type` is
`"note_on"` (with `msg.note`), `"control_change"` (with `msg.value`), or
anything else. -/
inductive MidiMsg where
  | noteOn (note : Nat)
  | controlChange (value : Nat)
  | otherEvent
deriving DecidableEq

/-- The loop-carried state of `ControllerCLI.run`: the module-level hold
buffer `arlBuffer` plus the local variables `jumpstate`, `menumode`,
`menuCounter` (lines 192–194, 27). -/
structure MidiState where
  arlBuffer : List (Nat × ℚ)
  jumpstate : Bool
  menumode : Bool
  menuCounter : Nat
deriving DecidableEq

/-- State at loop entry: empty hold buffer (line 27), `jumpstate = False`,
`menumode = True`, `menuCounter = 0` (lines 192–194). -/
def initialMidiState : MidiState :=
  { arlBuffer := [], jumpstate := false, menumode := true, menuCounter := 0 }

/-- Line 205: `msg.note = 42 if msg.note == 46 or (msg.note==38 and 38 in
arlBuffer.keys()) else msg.note`. -/
def rewriteNote (buf : List (Nat × ℚ)) (n : Nat) : Nat :=
  if n = 46 ∨ (n = 38 ∧ dictHasKey buf 38) then 42 else n

/-- Line 207: `arlBuffer[msg.note] = 0.04 if not "stick" in user_input else 0.3`. -/
def holdDuration (userInput : String) : ℚ :=
  if !pyContains "stick" userInput then 4 / 100 else 3 / 10

/-- Lines 226–229: the synthesized release command for an expired note whose
mapped command is `cmd`.  `user_input` starts as `cmd` with every `"hold"`
replaced by `"release"`; then, for each `"&&"`-clause of `cmd` containing
`"stick"`, `s.split(" ", 2)[-1]` is replaced by `"center"` in the whole
string. -/
def releaseFor (cmd : String) : String :=
  (pySplitOn cmd "&&").foldl
    (fun acc s =>
      if pyContains "stick" s then pyReplace acc ((pySplitMax s " " 2).getLastD "") "center"
      else acc)
    (pyReplace cmd "hold" "release")

/-- One iteration of the `while True` loop of `ControllerCLI.run`
(lines 196–231), up to and including the computation of `user_input` but
before the menu-mode truncation: elapsed time `dtime` is subtracted from
every hold-buffer entry; a polled message (or none) is translated; with no
message the first expired hold-buffer entry, if any, is removed and its
release command synthesized.  Returns the successor state and the
synthesized `user_input`. -/
def midiTick (st : MidiState) (dtime : ℚ) (msg : Option MidiMsg) : MidiState × String :=
  let buf := decBuffer st.arlBuffer dtime
  match msg with
  | some (MidiMsg.noteOn n0) =>
    let n := rewriteNote buf n0
    let userInput := midiToKeyD n
    let buf2 := dictSet buf n (holdDuration userInput)
    if n = 48 then
      if st.menuCounter + 1 > 10 then
        ({ arlBuffer := buf2, jumpstate := st.jumpstate, menumode := !st.menumode,
           menuCounter := 0 }, userInput)
      else
        ({ arlBuffer := buf2, jumpstate := st.jumpstate, menumode := st.menumode,
           menuCounter := st.menuCounter + 1 }, userInput)
    else
      ({ arlBuffer := buf2, jumpstate := st.jumpstate, menumode := st.menumode,
         menuCounter := 0 }, userInput)
  | some (MidiMsg.controlChange v) =>
    if v > 64 ∧ !st.jumpstate then
      ({ st with arlBuffer := buf, jumpstate := true }, midiToKeyD 6)
    else if v ≤ 64 ∧ st.jumpstate then
      ({ st with arlBuffer := buf, jumpstate := false }, midiToKeyD 5)
    else
      ({ st with arlBuffer := buf }, "")
  | some MidiMsg.otherEvent => ({ st with arlBuffer := buf }, "")
  | none =>
    match buf.find? (fun kv => decide (kv.2 ≤ 0)) with
    | some kv => ({ st with arlBuffer := dictDel buf kv.1 }, releaseFor (midiToKeyD kv.1))
    | none => ({ st with arlBuffer := buf }, "")

/-- Iterated loop iterations: the translator part of successive passes of
the `while True` loop, fed a list of (elapsed time, polled message) pairs.
Returns the final state and the synthesized `user_input` of every pass. -/
def midiRun : MidiState → List (ℚ × Option MidiMsg) → MidiState × List String
  | st, [] => (st, [])
  | st, (δ, msg) :: rest =>
    let r := midiTick st δ msg
    let r2 := midiRun r.1 rest
    (r2.1, r.2 :: r2.2)

/-- Lines 235–236: `if menumode: user_input = user_input.split("&&")[0]`. -/
def menuTruncate (menumode : Bool) (s : String) : String :=
  if menumode then (pySplitOn s "&&").headD "" else s

/-!
## Spec-side formulation of the release synthesis (for claim C5)

The specification describes the synthesized release clause-by-clause:
every occurrence of the hold keyword is replaced by the release keyword,
and each `&&`-clause containing "stick" has its direction-and-value
portion (everything after the first two space-separated tokens) replaced
by "center".  These definitions follow the spec's words; the theorem for
C5 compares them with `releaseFor`, which follows the code.
-/

/-- Spec reading of the release transformation of one `&&`-clause. -/
def specClauseRelease (s : String) : String :=
  let base := pyReplace s "hold" "release"
  if pyContains "stick" s then
    String.intercalate " " ((pySplitMax base " " 2).take 2 ++ ["center"])
  else base

/-- Spec reading of the whole synthesized release command. -/
def specReleaseFor (cmd : String) : String :=
  String.intercalate "&&" ((pySplitOn cmd "&&").map specClauseRelease)

example : releaseFor "hold a&&hold y" = "release a&&release y" := by decide
example : releaseFor "stick l h 3200&&stick r h 3200" = "stick l center&&stick r center" := by decide
example : releaseFor "hold b&&stick l center" = "release b&&stick l center" := by decide
example : specReleaseFor "stick l up&&stick r up" = "stick l center&&stick r center" := by decide

/-!
## Command dispatch (`CLI.run` lines 90–111, `ControllerCLI.run` lines 238–269)

Handlers (built-in `cmd_*` coroutines and registered commands) are
modelled by their observable outcome: either a raised exception (its
printed message) or a returned value, where the returned `""` stands for
any falsy result (`None` or the empty string) and is not printed.  The
dispatcher's observable behaviour is a list of effects: console prints,
handler invocations, and the final `button_push` call.
-/

/-- Outcome-level model of a command handler. -/
def Handler : Type := List String → Except String String

/-- The reflection/registry environment the dispatch loop consults:
`cmd_*` methods (`hasattr(self, f'cmd_{cmd}')`), the `self.commands`
registry, and `get_available_buttons()`. -/
structure DispatchEnv where
  builtins : List (String × Handler)
  commands : List (String × Handler)
  availableButtons : List String

/-- Observable effects of the dispatch loop. -/
inductive Effect where
  | printed (s : String)
  | invoked (cmd : String) (args : List String)
  | pushedButtons (buttons : List String)
deriving DecidableEq

/-- Name lookup in an association list of handlers. -/
def lookupHandler (l : List (String × Handler)) (c : String) : Option Handler :=
  (l.find? (fun p => p.1 == c)).map (fun p => p.2)

/-- `result = await handler(*args); if result: print(result)` inside
`try/except Exception as e: print(e)` (lines 97–102 and 249–261). -/
def handlerEffects (c : String) (args : List String) (h : Handler) : List Effect :=
  match h args with
  | Except.error e => [Effect.invoked c args, Effect.printed e]
  | Except.ok r =>
    if r ≠ "" then [Effect.invoked c args, Effect.printed r] else [Effect.invoked c args]

/-- `print('command', cmd, 'not found, call help for help.')`. -/
def notFoundMsg (c : String) : String :=
  "command " ++ c ++ " not found, call help for help."

/-- Dispatch of one tokenized sub-command in the base `CLI.run`
(lines 96–111): built-in method, else registry, else not-found message. -/
def subCmdStepBase (env : DispatchEnv) (c : String) (args : List String) : List Effect :=
  match lookupHandler env.builtins c with
  | some h => handlerEffects c args h
  | none =>
    match lookupHandler env.commands c with
    | some h => handlerEffects c args h
    | none => [Effect.printed (notFoundMsg c)]

/-- Dispatch of one tokenized sub-command in `ControllerCLI.run`
(lines 246–265): built-in method, else registry, else an available button
is accumulated (second component), else not-found message. -/
def subCmdStepCtrl (env : DispatchEnv) (c : String) (args : List String) :
    List Effect × List String :=
  match lookupHandler env.builtins c with
  | some h => (handlerEffects c args h, [])
  | none =>
    match lookupHandler env.commands c with
    | some h => (handlerEffects c args h, [])
    | none =>
      if c ∈ env.availableButtons then ([], [c])
      else ([Effect.printed (notFoundMsg c)], [])

/-- Effects and accumulated buttons of one sub-command string of a chain
(controller variant), including its `shlex` tokenization. -/
def subStepCtrl (env : DispatchEnv) (sub : String) : List Effect × List String :=
  match pyShlexSplit sub with
  | [] => ([], [])
  | c :: args => subCmdStepCtrl env c args

/-- Effects of one sub-command string of a chain (base variant). -/
def subStepBase (env : DispatchEnv) (sub : String) : List Effect :=
  match pyShlexSplit sub with
  | [] => []
  | c :: args => subCmdStepBase env c args

/-- How processing a chain ends: normally, via the `exit` token
(`return`), or by the uncaught `ValueError` that
`cmd, *args = shlex.split(command)` raises on an empty token list. -/
inductive ChainOutcome where
  | finished (effects : List Effect)
  | exited (effects : List Effect)
  | crashed (effects : List Effect)
deriving DecidableEq

/-- Lines 267–269: after the chain, `if buttons_to_push:` print
`"button push"` and forward the whole accumulated list in one
`button_push` call. -/
def pushTail (btns : List String) : List Effect :=
  if btns ≠ [] then [Effect.printed "button push", Effect.pushedButtons btns] else []

/-- The `for command in user_input.split('&&')` loop of `ControllerCLI.run`
(lines 240–269) over the remaining sub-commands, carrying the
`buttons_to_push` accumulator; at the end of the chain a non-empty
accumulator is printed and forwarded in a single `button_push` call
(lines 267–269). -/
def runChainCtrlAux (env : DispatchEnv) : List String → List String → ChainOutcome
  | [], btns => ChainOutcome.finished (pushTail btns)
  | sub :: rest, btns =>
    match pyShlexSplit sub with
    | [] => ChainOutcome.crashed []
    | c :: args =>
      if c = "exit" then ChainOutcome.exited []
      else
        let step := subCmdStepCtrl env c args
        match runChainCtrlAux env rest (btns ++ step.2) with
        | ChainOutcome.finished es => ChainOutcome.finished (step.1 ++ es)
        | ChainOutcome.exited es => ChainOutcome.exited (step.1 ++ es)
        | ChainOutcome.crashed es => ChainOutcome.crashed (step.1 ++ es)

/-- Processing of one whole synthesized/typed input line by the controller
dispatch loop. -/
def runChainCtrl (env : DispatchEnv) (input : String) : ChainOutcome :=
  runChainCtrlAux env (pySplitOn input "&&") []

/-- The `for command in user_input.split('&&')` loop of the base `CLI.run`
(lines 90–111) over the remaining sub-commands. -/
def runChainBaseAux (env : DispatchEnv) : List String → ChainOutcome
  | [] => ChainOutcome.finished []
  | sub :: rest =>
    match pyShlexSplit sub with
    | [] => ChainOutcome.crashed []
    | c :: args =>
      if c = "exit" then ChainOutcome.exited []
      else
        match runChainBaseAux env rest with
        | ChainOutcome.finished es => ChainOutcome.finished (subCmdStepBase env c args ++ es)
        | ChainOutcome.exited es => ChainOutcome.exited (subCmdStepBase env c args ++ es)
        | ChainOutcome.crashed es => ChainOutcome.crashed (subCmdStepBase env c args ++ es)

/-!
## Command registry (`CLI.add_command`, lines 61–64)
-/

/-- `add_command`: raises a `ValueError` (second component) if the name is
already registered — leaving the registry untouched — and otherwise stores
the handler under the name. -/
def add_command (commands : List (String × Handler)) (name : String) (command : Handler) :
    List (String × Handler) × Option String :=
  if commands.any (fun p => p.1 == name) then
    (commands, some ("Command " ++ name ++ " already registered."))
  else
    (commands ++ [(name, command)], none)

/-!
## Base `CLI.run` startup (lines 79–84)

The first statements of `CLI.run` read `pg.get_count()`, `pg.get_device_info(i)`
and `pg.Input(3)`, but the name `pg` is bound nowhere in the module — it is
neither imported (lines 1–11) nor defined — so CPython raises
`NameError: name 'pg' is not defined` before the input loop is reached.
-/

/-- Every name bound at module level in `command_line_interface.py`:
the imports of lines 1–11 and the module-level definitions. -/
def moduleGlobalNames : List String :=
  ["inspect", "logging", "shlex", "mido", "asyncio", "time", "ainput",
   "button_push", "ControllerState", "NotConnectedError", "logger",
   "midi_to_key", "arlBuffer", "_print_doc", "CLI", "ControllerCLI"]

/-- Name resolution of the first statement `count = pg.get_count()` of
`CLI.run` (line 80): succeeds only if `pg` resolves as a module global
(it is no local and no Python builtin either). -/
def cliRunFirstStatement : Except String Unit :=
  if "pg" ∈ moduleGlobalNames then Except.ok ()
  else Except.error "NameError: name 'pg' is not defined"

/-!
## Stick commands (`ControllerCLI._set_stick` lines 132–163, `cmd_stick`
lines 165–180)

The stick object is owned by the external `controller_state` collaborator;
what this module does to it is a sequence of setter invocations.  We model
`_set_stick` by the list of setter calls it performs (first component) plus
the `ValueError` it raises, if any (second component).  The confirmation
string of the successful path reads the stick back through the external
`get_h`/`get_v` and is outside this module.
-/

/-- A mutating setter invocation on a stick-state object. -/
inductive StickOp where
  | setCenter
  | setUp
  | setDown
  | setLeft
  | setRight
  | setH (v : Int)
  | setV (v : Int)
deriving DecidableEq

/-- `_set_stick(stick, direction, value)` (lines 132–163): the setter calls
performed and the `ValueError` raised, if any. -/
def set_stick (direction : String) (value : Option String) : List StickOp × Option String :=
  if direction = "center" then ([StickOp.setCenter], none)
  else if direction = "up" then ([StickOp.setUp], none)
  else if direction = "down" then ([StickOp.setDown], none)
  else if direction = "left" then ([StickOp.setLeft], none)
  else if direction = "right" then ([StickOp.setRight], none)
  else if direction = "h" ∨ direction = "horizontal" then
    match value with
    | none => ([], some "Missing value")
    | some v =>
      match pyInt v with
      | none => ([], some ("Unexpected stick value \"" ++ v ++ "\""))
      | some i => ([StickOp.setH i], none)
  else if direction = "v" ∨ direction = "vertical" then
    match value with
    | none => ([], some "Missing value")
    | some v =>
      match pyInt v with
      | none => ([], some ("Unexpected stick value \"" ++ v ++ "\""))
      | some i => ([StickOp.setV i], none)
  else ([], some ("Unexpected argument \"" ++ direction ++ "\""))

/-- Which of the two externally owned sticks `cmd_stick` selects. -/
inductive StickSide where
  | leftStick
  | rightStick
deriving DecidableEq

/-- `cmd_stick(side, direction, value=None)` (lines 165–180): selects the
stick by `side` and delegates to `_set_stick`; a bad side raises a
`ValueError` before any setter is touched. -/
def cmd_stick (side direction : String) (value : Option String) :
    List (StickSide × StickOp) × Option String :=
  if side = "l" ∨ side = "left" then
    let r := set_stick direction value
    (r.1.map (fun op => (StickSide.leftStick, op)), r.2)
  else if side = "r" ∨ side = "right" then
    let r := set_stick direction value
    (r.1.map (fun op => (StickSide.rightStick, op)), r.2)
  else ([], some "Value of side must be \"l\", \"left\" or \"r\", \"right\"")

/-- Interpreting a list of setter invocations against any stick-state
type: performing no invocation leaves the state unchanged. -/
def applyStickOps {α σ : Type} (interp : α → σ → σ) (ops : List α) (s : σ) : σ :=
  ops.foldl (fun st op => interp op st) s

/-!
## Helper lemmas about the ordered-dict operations
-/

theorem dictLookup_nil (k : Nat) : dictLookup [] k = none := rfl

theorem dictLookup_cons (a : Nat) (b : ℚ) (rest : List (Nat × ℚ)) (k : Nat) :
    dictLookup ((a, b) :: rest) k = if a = k then some b else dictLookup rest k := by
  by_cases h : a = k
  · simp [dictLookup, List.find?, h]
  · have hb : (a == k) = false := by simpa using h
    simp [dictLookup, List.find?, hb, h]

theorem dictHasKey_cons (a : Nat) (b : ℚ) (rest : List (Nat × ℚ)) (k : Nat) :
    dictHasKey ((a, b) :: rest) k = (a == k || dictHasKey rest k) := by
  simp [dictHasKey]

theorem decBuffer_nil (δ : ℚ) : decBuffer [] δ = [] := rfl

theorem decBuffer_cons (a : Nat) (b : ℚ) (rest : List (Nat × ℚ)) (δ : ℚ) :
    decBuffer ((a, b) :: rest) δ = (a, b - δ) :: decBuffer rest δ := rfl

theorem dictLookup_decBuffer (d : List (Nat × ℚ)) (δ : ℚ) (k : Nat) :
    dictLookup (decBuffer d δ) k = (dictLookup d k).map (fun v => v - δ) := by
  induction d with
  | nil => rfl
  | cons kv rest ih =>
    obtain ⟨a, b⟩ := kv
    rw [decBuffer_cons, dictLookup_cons, dictLookup_cons]
    by_cases h : a = k
    · simp [h]
    · simp only [h, if_false, ih]

theorem dictHasKey_decBuffer (d : List (Nat × ℚ)) (δ : ℚ) (k : Nat) :
    dictHasKey (decBuffer d δ) k = dictHasKey d k := by
  induction d with
  | nil => rfl
  | cons kv rest ih =>
    obtain ⟨a, b⟩ := kv
    rw [decBuffer_cons, dictHasKey_cons, dictHasKey_cons, ih]

theorem dictLookup_mapSet_self (d : List (Nat × ℚ)) (k : Nat) (v : ℚ)
    (h : d.any (fun kv => kv.1 == k) = true) :
    dictLookup (d.map (fun kv => if kv.1 == k then (k, v) else kv)) k = some v := by
  induction d with
  | nil => simp at h
  | cons kv rest ih =>
    obtain ⟨a, b⟩ := kv
    by_cases ha : a = k
    · simp [ha, dictLookup_cons]
    · have hrest : rest.any (fun kv => kv.1 == k) = true := by
        simp only [List.any_cons] at h
        rcases Bool.or_eq_true_iff.1 h with h1 | h2
        · exact absurd (by simpa using h1) ha
        · exact h2
      simp only [List.map_cons]
      rw [show ((if (a, b).1 == k then (k, v) else (a, b)) = (a, b)) by simp [ha]]
      rw [dictLookup_cons]
      simp only [ha, if_false]
      exact ih hrest

theorem dictLookup_append_new (d : List (Nat × ℚ)) (k : Nat) (v : ℚ)
    (h : d.any (fun kv => kv.1 == k) = false) :
    dictLookup (d ++ [(k, v)]) k = some v := by
  induction d with
  | nil => simp [dictLookup_cons]
  | cons kv rest ih =>
    obtain ⟨a, b⟩ := kv
    simp only [List.any_cons, Bool.or_eq_false_iff] at h
    have ha : ¬ (a = k) := by simpa using h.1
    simp only [List.cons_append]
    rw [dictLookup_cons]
    simp only [ha, if_false]
    exact ih h.2

theorem dictLookup_set_self (d : List (Nat × ℚ)) (k : Nat) (v : ℚ) :
    dictLookup (dictSet d k v) k = some v := by
  unfold dictSet
  cases h : d.any (fun kv => kv.1 == k) with
  | true =>
    rw [if_pos rfl]
    exact dictLookup_mapSet_self d k v h
  | false =>
    rw [if_neg (by simp)]
    exact dictLookup_append_new d k v h

theorem dictLookup_mapSet_other (d : List (Nat × ℚ)) (k : Nat) (v : ℚ) (k' : Nat)
    (h : k' ≠ k) :
    dictLookup (d.map (fun kv => if kv.1 == k then (k, v) else kv)) k' = dictLookup d k' := by
  induction d with
  | nil => rfl
  | cons kv rest ih =>
    obtain ⟨a, b⟩ := kv
    by_cases ha : a = k
    · have h1 : ((a, b).1 == k) = true := by simp [ha]
      simp only [List.map_cons, h1, if_true]
      rw [dictLookup_cons, dictLookup_cons]
      have hk' : ¬ (k = k') := fun hk => h hk.symm
      have ha' : ¬ (a = k') := by rw [ha]; exact hk'
      simp only [hk', ha', if_false]
      exact ih
    · simp only [List.map_cons]
      rw [show ((if (a, b).1 == k then (k, v) else (a, b)) = (a, b)) by simp [ha]]
      rw [dictLookup_cons, dictLookup_cons]
      by_cases ha' : a = k'
      · simp [ha']
      · simp only [ha', if_false]
        exact ih

theorem dictLookup_append_other (d : List (Nat × ℚ)) (k : Nat) (v : ℚ) (k' : Nat)
    (h : k' ≠ k) :
    dictLookup (d ++ [(k, v)]) k' = dictLookup d k' := by
  induction d with
  | nil =>
    rw [List.nil_append, dictLookup_cons]
    have : ¬ (k = k') := fun hk => h hk.symm
    simp [this, dictLookup_nil]
  | cons kv rest ih =>
    obtain ⟨a, b⟩ := kv
    simp only [List.cons_append]
    rw [dictLookup_cons, dictLookup_cons]
    by_cases ha : a = k'
    · simp [ha]
    · simp only [ha, if_false]
      exact ih

theorem dictLookup_set_other (d : List (Nat × ℚ)) (k : Nat) (v : ℚ) (k' : Nat) (h : k' ≠ k) :
    dictLookup (dictSet d k v) k' = dictLookup d k' := by
  unfold dictSet
  by_cases hany : d.any (fun kv => kv.1 == k)
  · rw [if_pos hany]
    exact dictLookup_mapSet_other d k v k' h
  · rw [if_neg hany]
    exact dictLookup_append_other d k v k' h

/-!
## Helper lemmas about the translator
-/

theorem rewriteNote_of_mapped (buf : List (Nat × ℚ)) (n : Nat) (cmd : String)
    (hmap : midi_to_key n = some cmd) (h38 : n = 38 → dictHasKey buf 38 = false) :
    rewriteNote buf n = n := by
  unfold rewriteNote
  rw [if_neg]
  rintro (rfl | ⟨rfl, hkey⟩)
  · rw [show midi_to_key 46 = none from by decide] at hmap
    cases hmap
  · rw [h38 rfl] at hkey
    cases hkey

theorem rewriteNote_48 (buf : List (Nat × ℚ)) : rewriteNote buf 48 = 48 := by
  unfold rewriteNote
  rw [if_neg]
  rintro (h | ⟨h, _⟩) <;> simp at h

theorem rewriteNote_ne_48 (buf : List (Nat × ℚ)) (n : Nat) (h : n ≠ 48) :
    rewriteNote buf n ≠ 48 := by
  unfold rewriteNote
  split
  · decide
  · exact h

theorem holdDuration_pos (s : String) : 0 < holdDuration s := by
  unfold holdDuration
  split <;> norm_num

set_option maxHeartbeats 3200000 in
theorem releaseFor_mapped_ne_empty (n : Nat) (cmd : String)
    (hmap : midi_to_key n = some cmd) : releaseFor cmd ≠ "" := by
  unfold midi_to_key at hmap
  split_ifs at hmap <;> cases hmap <;> decide

set_option maxHeartbeats 3200000 in
theorem releaseFor_eq_spec (n : Nat) :
    releaseFor (midiToKeyD n) = specReleaseFor (midiToKeyD n) := by
  unfold midiToKeyD midi_to_key
  split_ifs <;> decide

theorem midiTick_noteOn_arlBuffer (st : MidiState) (δ : ℚ) (n : Nat) :
    (midiTick st δ (some (MidiMsg.noteOn n))).1.arlBuffer =
      dictSet (decBuffer st.arlBuffer δ) (rewriteNote (decBuffer st.arlBuffer δ) n)
        (holdDuration (midiToKeyD (rewriteNote (decBuffer st.arlBuffer δ) n))) := by
  unfold midiTick
  dsimp only
  split
  · split <;> rfl
  · rfl

theorem midiTick_noteOn_out (st : MidiState) (δ : ℚ) (n : Nat) :
    (midiTick st δ (some (MidiMsg.noteOn n))).2 =
      midiToKeyD (rewriteNote (decBuffer st.arlBuffer δ) n) := by
  unfold midiTick
  dsimp only
  split
  · split <;> rfl
  · rfl

theorem midiTick_noteOn48_menu (st : MidiState) (δ : ℚ) :
    (midiTick st δ (some (MidiMsg.noteOn 48))).1.menumode =
        (if st.menuCounter + 1 > 10 then !st.menumode else st.menumode) ∧
      (midiTick st δ (some (MidiMsg.noteOn 48))).1.menuCounter =
        (if st.menuCounter + 1 > 10 then 0 else st.menuCounter + 1) := by
  unfold midiTick
  dsimp only
  rw [rewriteNote_48]
  rw [if_pos rfl]
  split <;> exact ⟨rfl, rfl⟩

theorem midiTick_noteOn_other_menu (st : MidiState) (δ : ℚ) (n : Nat) (h : n ≠ 48) :
    (midiTick st δ (some (MidiMsg.noteOn n))).1.menumode = st.menumode ∧
      (midiTick st δ (some (MidiMsg.noteOn n))).1.menuCounter = 0 := by
  unfold midiTick
  dsimp only
  rw [if_neg (rewriteNote_ne_48 (decBuffer st.arlBuffer δ) n h)]
  exact ⟨rfl, rfl⟩

theorem midiTick_none_menu (st : MidiState) (δ : ℚ) :
    (midiTick st δ none).1.menumode = st.menumode ∧
      (midiTick st δ none).1.menuCounter = st.menuCounter := by
  unfold midiTick
  dsimp only
  split <;> exact ⟨rfl, rfl⟩

theorem midiTick_controlChange_menu (st : MidiState) (δ : ℚ) (v : Nat) :
    (midiTick st δ (some (MidiMsg.controlChange v))).1.menumode = st.menumode ∧
      (midiTick st δ (some (MidiMsg.controlChange v))).1.menuCounter = st.menuCounter := by
  unfold midiTick
  dsimp only
  split
  · exact ⟨rfl, rfl⟩
  · split <;> exact ⟨rfl, rfl⟩

theorem midiTick_otherEvent_menu (st : MidiState) (δ : ℚ) :
    (midiTick st δ (some MidiMsg.otherEvent)).1.menumode = st.menumode ∧
      (midiTick st δ (some MidiMsg.otherEvent)).1.menuCounter = st.menuCounter := by
  exact ⟨rfl, rfl⟩

theorem midiRun_cons (st : MidiState) (δ : ℚ) (msg : Option MidiMsg)
    (rest : List (ℚ × Option MidiMsg)) :
    midiRun st ((δ, msg) :: rest) =
      ((midiRun (midiTick st δ msg).1 rest).1,
        (midiTick st δ msg).2 :: (midiRun (midiTick st δ msg).1 rest).2) := rfl

theorem midiRun_48_below (evs : List (ℚ × Option MidiMsg)) :
    ∀ st : MidiState, (∀ e ∈ evs, e.2 = some (MidiMsg.noteOn 48)) →
      st.menuCounter + evs.length ≤ 10 →
      (midiRun st evs).1.menumode = st.menumode ∧
        (midiRun st evs).1.menuCounter = st.menuCounter + evs.length := by
  induction evs with
  | nil => exact fun st _ _ => ⟨rfl, rfl⟩
  | cons e rest ih =>
    intro st hall hle
    obtain ⟨δ, msg⟩ := e
    have hmsg : msg = some (MidiMsg.noteOn 48) := hall (δ, msg) (List.mem_cons_self _ _)
    subst hmsg
    rw [midiRun_cons]
    have hm1 := (midiTick_noteOn48_menu st δ).1
    have hm2 := (midiTick_noteOn48_menu st δ).2
    have hnotoggle : ¬ (st.menuCounter + 1 > 10) := by
      simp only [List.length_cons] at hle
      omega
    rw [if_neg hnotoggle] at hm1
    rw [if_neg hnotoggle] at hm2
    have ihres := ih (midiTick st δ (some (MidiMsg.noteOn 48))).1
      (fun e he => hall e (List.mem_cons_of_mem _ he))
      (by rw [hm2]; simp only [List.length_cons] at hle ⊢; omega)
    refine ⟨ihres.1.trans hm1, ?_⟩
    rw [ihres.2, hm2]
    simp only [List.length_cons]
    omega

theorem midiRun_48_toggle (evs : List (ℚ × Option MidiMsg)) :
    ∀ st : MidiState, (∀ e ∈ evs, e.2 = some (MidiMsg.noteOn 48)) →
      st.menuCounter ≤ 10 → st.menuCounter + evs.length = 11 →
      (midiRun st evs).1.menumode = !st.menumode ∧
        (midiRun st evs).1.menuCounter = 0 := by
  induction evs with
  | nil =>
    intro st _ hle hlen
    simp only [List.length_nil, Nat.add_zero] at hlen
    omega
  | cons e rest ih =>
    intro st hall hle hlen
    obtain ⟨δ, msg⟩ := e
    have hmsg : msg = some (MidiMsg.noteOn 48) := hall (δ, msg) (List.mem_cons_self _ _)
    subst hmsg
    rw [midiRun_cons]
    have hm1 := (midiTick_noteOn48_menu st δ).1
    have hm2 := (midiTick_noteOn48_menu st δ).2
    simp only [List.length_cons] at hlen
    by_cases htog : st.menuCounter + 1 > 10
    · -- eleventh consecutive designated note: the flag toggles, counter resets
      rw [if_pos htog] at hm1
      rw [if_pos htog] at hm2
      have hrest : rest.length = 0 := by omega
      have hrestnil : rest = [] := List.length_eq_zero.1 hrest
      subst hrestnil
      exact ⟨hm1, hm2⟩
    · rw [if_neg htog] at hm1
      rw [if_neg htog] at hm2
      have ihres := ih (midiTick st δ (some (MidiMsg.noteOn 48))).1
        (fun e he => hall e (List.mem_cons_of_mem _ he))
        (by rw [hm2]; omega) (by rw [hm2]; omega)
      exact ⟨ihres.1.trans (by rw [hm1]), ihres.2⟩

theorem midiTick_none_empty (st : MidiState) (δ : ℚ) (h : st.arlBuffer = []) :
    (midiTick st δ none).1.arlBuffer = [] ∧ (midiTick st δ none).2 = "" := by
  unfold midiTick
  dsimp only
  rw [h]
  exact ⟨rfl, rfl⟩

theorem midiRun_none_empty (evs : List (ℚ × Option MidiMsg)) :
    ∀ st : MidiState, st.arlBuffer = [] → (∀ e ∈ evs, e.2 = none) →
      (midiRun st evs).1.arlBuffer = [] ∧
        (midiRun st evs).2 = List.replicate evs.length "" := by
  induction evs with
  | nil => exact fun st h _ => ⟨h, rfl⟩
  | cons e rest ih =>
    intro st hb hall
    obtain ⟨δ, msg⟩ := e
    have hmsg : msg = none := hall (δ, msg) (List.mem_cons_self _ _)
    subst hmsg
    rw [midiRun_cons]
    have htick := midiTick_none_empty st δ hb
    have ihres := ih (midiTick st δ none).1 htick.1
      (fun e he => hall e (List.mem_cons_of_mem _ he))
    refine ⟨ihres.1, ?_⟩
    rw [List.length_cons, List.replicate_succ, htick.2, ihres.2]

theorem midiTick_none_single_alive (st : MidiState) (δ : ℚ) (n : Nat) (r : ℚ)
    (hb : st.arlBuffer = [(n, r)]) (halive : ¬ (r - δ ≤ 0)) :
    (midiTick st δ none).1.arlBuffer = [(n, r - δ)] ∧ (midiTick st δ none).2 = "" := by
  unfold midiTick
  dsimp only
  rw [hb, decBuffer_cons, decBuffer_nil]
  have hfind : (List.find? (fun kv => decide (kv.2 ≤ 0)) [(n, r - δ)]) = none := by
    simp [List.find?, halive]
  rw [hfind]
  exact ⟨rfl, rfl⟩

theorem midiTick_none_single_expired (st : MidiState) (δ : ℚ) (n : Nat) (r : ℚ)
    (hb : st.arlBuffer = [(n, r)]) (hexp : r - δ ≤ 0) :
    (midiTick st δ none).1.arlBuffer = [] ∧
      (midiTick st δ none).2 = releaseFor (midiToKeyD n) := by
  unfold midiTick
  dsimp only
  rw [hb, decBuffer_cons, decBuffer_nil]
  have hfind : (List.find? (fun kv => decide (kv.2 ≤ 0)) [(n, r - δ)]) = some (n, r - δ) := by
    simp [List.find?, hexp]
  rw [hfind]
  constructor
  · show dictDel [(n, r - δ)] n = []
    simp [dictDel]
  · rfl

theorem filter_replicate_empty (k : Nat) :
    (List.replicate k "").filter (fun s => decide (s ≠ "")) = [] := by
  induction k with
  | zero => rfl
  | succ k ih =>
    rw [List.replicate_succ, List.filter_cons, if_neg (by simp)]
    exact ih

theorem midiRun_quiet_release (evs : List (ℚ × Option MidiMsg)) :
    ∀ (st : MidiState) (n : Nat) (r : ℚ), st.arlBuffer = [(n, r)] →
      (∀ e ∈ evs, e.2 = none) → (∀ e ∈ evs, 0 ≤ e.1) →
      0 < r → r ≤ (evs.map Prod.fst).sum → releaseFor (midiToKeyD n) ≠ "" →
      (midiRun st evs).1.arlBuffer = [] ∧
        (midiRun st evs).2.filter (fun s => decide (s ≠ "")) = [releaseFor (midiToKeyD n)] := by
  induction evs with
  | nil =>
    intro st n r _ _ _ hr hsum _
    simp only [List.map_nil, List.sum_nil] at hsum
    exact absurd hsum (by linarith)
  | cons e rest ih =>
    intro st n r hb hnone hpos hr hsum hne
    obtain ⟨δ, msg⟩ := e
    have hmsg : msg = none := hnone (δ, msg) (List.mem_cons_self _ _)
    subst hmsg
    rw [midiRun_cons]
    by_cases hexp : r - δ ≤ 0
    · have htick := midiTick_none_single_expired st δ n r hb hexp
      have hrest := midiRun_none_empty rest (midiTick st δ none).1 htick.1
        (fun e he => hnone e (List.mem_cons_of_mem _ he))
      refine ⟨hrest.1, ?_⟩
      rw [htick.2, hrest.2, List.filter_cons]
      rw [if_pos (by exact decide_eq_true hne)]
      rw [filter_replicate_empty]
    · have htick := midiTick_none_single_alive st δ n r hb hexp
      have hδ : 0 ≤ δ := hpos (δ, none) (List.mem_cons_self _ _)
      have hsum' : r - δ ≤ (rest.map Prod.fst).sum := by
        simp only [List.map_cons, List.sum_cons] at hsum
        linarith
      have ihres := ih (midiTick st δ none).1 n (r - δ) htick.1
        (fun e he => hnone e (List.mem_cons_of_mem _ he))
        (fun e he => hpos e (List.mem_cons_of_mem _ he))
        (by linarith [not_le.1 hexp]) hsum' hne
      refine ⟨ihres.1, ?_⟩
      rw [htick.2, List.filter_cons]
      rw [if_neg (by simp)]
      exact ihres.2

/-!
## Helper lemmas about the dispatch loops
-/

theorem subStepBase_eq (env : DispatchEnv) (s : String) (c : String) (args : List String)
    (hsp : pyShlexSplit s = c :: args) :
    subStepBase env s = subCmdStepBase env c args := by
  unfold subStepBase
  rw [hsp]

theorem subStepCtrl_eq (env : DispatchEnv) (s : String) (c : String) (args : List String)
    (hsp : pyShlexSplit s = c :: args) :
    subStepCtrl env s = subCmdStepCtrl env c args := by
  unfold subStepCtrl
  rw [hsp]

theorem runChainBase_decomp (subs : List String) :
    ∀ env : DispatchEnv, (∀ s ∈ subs, pyShlexSplit s ≠ []) →
      (∀ s ∈ subs, (pyShlexSplit s).head? ≠ some "exit") →
      runChainBaseAux env subs =
        ChainOutcome.finished ((subs.map (subStepBase env)).flatten) := by
  induction subs with
  | nil => exact fun env _ _ => rfl
  | cons s rest ih =>
    intro env hne hx
    cases hsp : pyShlexSplit s with
    | nil => exact absurd hsp (hne s (List.mem_cons_self _ _))
    | cons c args =>
      have hc : ¬ (c = "exit") := by
        have := hx s (List.mem_cons_self _ _)
        rw [hsp] at this
        simpa using this
      unfold runChainBaseAux
      rw [hsp]
      dsimp only
      rw [if_neg hc,
        ih env (fun t ht => hne t (List.mem_cons_of_mem _ ht))
          (fun t ht => hx t (List.mem_cons_of_mem _ ht))]
      dsimp only
      rw [List.map_cons, List.flatten_cons, subStepBase_eq env s c args hsp]

theorem runChainCtrl_decomp (subs : List String) :
    ∀ (env : DispatchEnv) (btns : List String), (∀ s ∈ subs, pyShlexSplit s ≠ []) →
      (∀ s ∈ subs, (pyShlexSplit s).head? ≠ some "exit") →
      runChainCtrlAux env subs btns =
        ChainOutcome.finished
          ((subs.map (fun s => (subStepCtrl env s).1)).flatten ++
            pushTail (btns ++ (subs.map (fun s => (subStepCtrl env s).2)).flatten)) := by
  induction subs with
  | nil =>
    intro env btns _ _
    simp [runChainCtrlAux]
  | cons s rest ih =>
    intro env btns hne hx
    cases hsp : pyShlexSplit s with
    | nil => exact absurd hsp (hne s (List.mem_cons_self _ _))
    | cons c args =>
      have hc : ¬ (c = "exit") := by
        have := hx s (List.mem_cons_self _ _)
        rw [hsp] at this
        simpa using this
      unfold runChainCtrlAux
      rw [hsp]
      dsimp only
      rw [if_neg hc]
      rw [ih env (btns ++ (subCmdStepCtrl env c args).2)
        (fun t ht => hne t (List.mem_cons_of_mem _ ht))
        (fun t ht => hx t (List.mem_cons_of_mem _ ht))]
      dsimp only
      rw [List.map_cons, List.map_cons, List.flatten_cons, List.flatten_cons,
        subStepCtrl_eq env s c args hsp]
      rw [List.append_assoc, List.append_assoc]

theorem dictHasKey_of_lookup (d : List (Nat × ℚ)) (k : Nat) (r : ℚ)
    (h : dictLookup d k = some r) : dictHasKey d k = true := by
  unfold dictLookup at h
  unfold dictHasKey
  cases hf : d.find? (fun kv => kv.1 == k) with
  | none => rw [hf] at h; cases h
  | some p =>
    have hp := List.find?_some hf
    exact List.any_eq_true.2 ⟨p, List.mem_of_find?_eq_some hf, hp⟩

theorem lookupHandler_append_new (l : List (String × Handler)) (name : String) (h : Handler)
    (hnone : l.any (fun p => p.1 == name) = false) :
    lookupHandler (l ++ [(name, h)]) name = some h := by
  induction l with
  | nil => simp [lookupHandler, List.find?]
  | cons p rest ih =>
    simp only [List.any_cons, Bool.or_eq_false_iff] at hnone
    simp only [List.cons_append, lookupHandler, List.find?, hnone.1]
    exact ih hnone.2

/-!
## Claim theorems
-/

/-- C3: calling `add_command` with an already-registered name raises the
duplicate-name error and leaves the registry unchanged, so the name still
maps to the originally registered handler; calling it with a fresh name
stores the new handler under that name. -/
theorem add_command_contract (commands : List (String × Handler))
    (name fresh : String) (h0 hnew h' : Handler)
    (hdup : lookupHandler commands name = some h0)
    (hfresh : lookupHandler commands fresh = none) :
    add_command commands name hnew =
        (commands, some ("Command " ++ name ++ " already registered.")) ∧
      lookupHandler (add_command commands name hnew).1 name = some h0 ∧
      add_command commands fresh h' = (commands ++ [(fresh, h')], none) ∧
      lookupHandler (add_command commands fresh h').1 fresh = some h' := by
  have hany : commands.any (fun p => p.1 == name) = true := by
    unfold lookupHandler at hdup
    cases hf : commands.find? (fun p => p.1 == name) with
    | none => rw [hf] at hdup; cases hdup
    | some p =>
      have hp := List.find?_some hf
      exact List.any_eq_true.2 ⟨p, List.mem_of_find?_eq_some hf, hp⟩
  have hanyf : commands.any (fun p => p.1 == fresh) = false := by
    unfold lookupHandler at hfresh
    cases hf : commands.find? (fun p => p.1 == fresh) with
    | none =>
      rw [Bool.eq_false_iff]
      intro hcon
      obtain ⟨p, hpmem, hp⟩ := List.any_eq_true.1 hcon
      have := List.find?_eq_none.1 hf p hpmem
      exact this hp
    | some p => rw [hf] at hfresh; cases hfresh
  have heq1 : add_command commands name hnew =
      (commands, some ("Command " ++ name ++ " already registered.")) := by
    unfold add_command
    rw [if_pos hany]
  have heq3 : add_command commands fresh h' = (commands ++ [(fresh, h')], none) := by
    unfold add_command
    rw [if_neg (by simp [hanyf])]
  refine ⟨heq1, ?_, heq3, ?_⟩
  · rw [heq1]
    exact hdup
  · rw [heq3]
    exact lookupHandler_append_new commands fresh h' hanyf

theorem add_command_contract_witness :
    add_command [("go", fun _ => Except.ok "went")] "go" (fun _ => Except.ok "other") =
        ([("go", fun _ => Except.ok "went")], some "Command go already registered.") ∧
      lookupHandler
          (add_command [("go", fun _ => Except.ok "went")] "go"
            (fun _ => Except.ok "other")).1 "go" =
        some (fun _ => Except.ok "went") ∧
      add_command [("go", fun _ => Except.ok "went")] "stop" (fun _ => Except.error "e") =
        ([("go", fun _ => Except.ok "went"), ("stop", fun _ => Except.error "e")], none) ∧
      lookupHandler
          (add_command [("go", fun _ => Except.ok "went")] "stop"
            (fun _ => Except.error "e")).1 "stop" =
        some (fun _ => Except.error "e") := by
  have h := add_command_contract [("go", fun _ => Except.ok "went")] "go" "stop"
    (fun _ => Except.ok "went") (fun _ => Except.ok "other") (fun _ => Except.error "e")
    rfl rfl
  exact ⟨h.1, h.2.1, h.2.2.1, h.2.2.2⟩

/-- C4: the stick setter raises the documented value errors — missing value
or unparseable value for `h`/`horizontal`/`v`/`vertical`, an error naming
any unrecognized direction token, and an error for any side token other
than `l`/`left`/`r`/`right` — and in every such error case it performs no
setter invocation, so any interpretation of the stick state is unchanged. -/
theorem stick_error_handling (σ σ' : Type) (interp : StickOp → σ → σ)
    (interp2 : StickSide × StickOp → σ' → σ') (stick0 : σ) (stick1 : σ')
    (d dBad side d2 sBad : String) (v v2 : Option String)
    (hd : d = "h" ∨ d = "horizontal" ∨ d = "v" ∨ d = "vertical")
    (hparse : pyInt sBad = none)
    (hdbad : dBad ∉ ["center", "up", "down", "left", "right", "h", "horizontal",
      "v", "vertical"])
    (hside : side ∉ ["l", "left", "r", "right"]) :
    set_stick d none = ([], some "Missing value") ∧
      set_stick d (some sBad) = ([], some ("Unexpected stick value \"" ++ sBad ++ "\"")) ∧
      set_stick dBad v = ([], some ("Unexpected argument \"" ++ dBad ++ "\"")) ∧
      cmd_stick side d2 v2 =
        ([], some "Value of side must be \"l\", \"left\" or \"r\", \"right\"") ∧
      applyStickOps interp (set_stick d none).1 stick0 = stick0 ∧
      applyStickOps interp (set_stick d (some sBad)).1 stick0 = stick0 ∧
      applyStickOps interp (set_stick dBad v).1 stick0 = stick0 ∧
      applyStickOps interp2 (cmd_stick side d2 v2).1 stick1 = stick1 := by
  have hdb : dBad ≠ "center" ∧ dBad ≠ "up" ∧ dBad ≠ "down" ∧ dBad ≠ "left" ∧
      dBad ≠ "right" ∧ dBad ≠ "h" ∧ dBad ≠ "horizontal" ∧ dBad ≠ "v" ∧
      dBad ≠ "vertical" := by
    simpa using hdbad
  have hsd : side ≠ "l" ∧ side ≠ "left" ∧ side ≠ "r" ∧ side ≠ "right" := by
    simpa using hside
  have h1 : set_stick d none = ([], some "Missing value") := by
    rcases hd with rfl | rfl | rfl | rfl <;> rfl
  have h2 : set_stick d (some sBad) =
      ([], some ("Unexpected stick value \"" ++ sBad ++ "\"")) := by
    rcases hd with rfl | rfl | rfl | rfl <;> simp [set_stick, hparse]
  have h3 : set_stick dBad v = ([], some ("Unexpected argument \"" ++ dBad ++ "\"")) := by
    obtain ⟨e1, e2, e3, e4, e5, e6, e7, e8, e9⟩ := hdb
    simp [set_stick, e1, e2, e3, e4, e5, e6, e7, e8, e9]
  have h4 : cmd_stick side d2 v2 =
      ([], some "Value of side must be \"l\", \"left\" or \"r\", \"right\"") := by
    obtain ⟨f1, f2, f3, f4⟩ := hsd
    simp [cmd_stick, f1, f2, f3, f4]
  refine ⟨h1, h2, h3, h4, ?_, ?_, ?_, ?_⟩ <;>
    simp [h1, h2, h3, h4, applyStickOps]

theorem stick_error_handling_witness :
    set_stick "h" none = ([], some "Missing value") ∧
      set_stick "h" (some "abc") = ([], some "Unexpected stick value \"abc\"") ∧
      set_stick "diag" (some "5") = ([], some "Unexpected argument \"diag\"") ∧
      cmd_stick "m" "h" (some "5") =
        ([], some "Value of side must be \"l\", \"left\" or \"r\", \"right\"") ∧
      applyStickOps (fun _ s => s + 1) (set_stick "h" none).1 (0 : Int) = 0 ∧
      applyStickOps (fun _ s => s + 1) (set_stick "h" (some "abc")).1 (0 : Int) = 0 ∧
      applyStickOps (fun _ s => s + 1) (set_stick "diag" (some "5")).1 (0 : Int) = 0 ∧
      applyStickOps (fun _ s => s + 1) (cmd_stick "m" "h" (some "5")).1 (0 : Int) = 0 := by
  have h := stick_error_handling Int Int (fun _ s => s + 1) (fun _ s => s + 1) 0 0
    "h" "diag" "m" "h" "abc" (some "5") (some "5")
    (Or.inl rfl) (by decide) (by decide) (by decide)
  exact ⟨h.1, h.2.1, h.2.2.1, h.2.2.2.1, h.2.2.2.2.1, h.2.2.2.2.2.1,
    h.2.2.2.2.2.2.1, h.2.2.2.2.2.2.2⟩

/-- C5: on a poll tick with no new event, the release command synthesized
for the first hold-buffer note whose decremented timer is at or below zero
equals the note's mapped command with every "hold" replaced by "release"
and, for each "&&"-clause containing "stick", the portion after the first
two space-separated tokens replaced by "center". -/
theorem release_synthesis_matches_spec (st : MidiState) (δ : ℚ) (k : Nat) (v : ℚ)
    (hfind : (decBuffer st.arlBuffer δ).find? (fun kv => decide (kv.2 ≤ 0)) = some (k, v)) :
    (midiTick st δ none).2 = specReleaseFor (midiToKeyD k) := by
  have hcode : (midiTick st δ none).2 = releaseFor (midiToKeyD k) := by
    unfold midiTick
    dsimp only
    rw [hfind]
  rw [hcode, releaseFor_eq_spec]

theorem release_synthesis_matches_spec_witness :
    (midiTick ⟨[(48, 1/25)], false, true, 0⟩ (1/25) none).2 =
      specReleaseFor (midiToKeyD 48) := by
  refine release_synthesis_matches_spec _ (1/25) 48 0 ?_
  rw [show decBuffer [(48, 1/25)] (1/25) = [(48, (1 : ℚ)/25 - 1/25)] from rfl]
  norm_num [List.find?]

/-- C8: the base `CLI.run`, when started, does not reach its
read-one-line dispatch loop at all: its first statement references the
unbound name `pg` and raises a `NameError`. -/
theorem cli_run_startup_name_error :
    cliRunFirstStatement = Except.error "NameError: name 'pg' is not defined" := by
  rfl

/-- C9: an incoming note-on is rewritten before any lookup — note 46 is
always treated as note 42, and note 38 is treated as note 42 while 38 is
held — and the command lookup, the created hold-buffer entry and the menu
counter all use the rewritten number, so a repeated press of note 38
while held starts a hold of note 42 and leaves note 38's timer running
down un-refreshed. -/
theorem note_rewrite_aliasing (st : MidiState) (δ : ℚ) (r : ℚ)
    (h38 : dictLookup st.arlBuffer 38 = some r) :
    (midiTick st δ (some (MidiMsg.noteOn 46))).2 = midiToKeyD 42 ∧
      dictLookup (midiTick st δ (some (MidiMsg.noteOn 46))).1.arlBuffer 42 =
        some (holdDuration (midiToKeyD 42)) ∧
      (midiTick st δ (some (MidiMsg.noteOn 38))).2 = midiToKeyD 42 ∧
      dictLookup (midiTick st δ (some (MidiMsg.noteOn 38))).1.arlBuffer 42 =
        some (holdDuration (midiToKeyD 42)) ∧
      dictLookup (midiTick st δ (some (MidiMsg.noteOn 38))).1.arlBuffer 38 =
        some (r - δ) ∧
      (midiTick st δ (some (MidiMsg.noteOn 38))).1.menuCounter = 0 := by
  have hrw46 : rewriteNote (decBuffer st.arlBuffer δ) 46 = 42 := by
    unfold rewriteNote
    rw [if_pos (Or.inl rfl)]
  have hkey : dictHasKey (decBuffer st.arlBuffer δ) 38 = true := by
    rw [dictHasKey_decBuffer]
    exact dictHasKey_of_lookup st.arlBuffer 38 r h38
  have hrw38 : rewriteNote (decBuffer st.arlBuffer δ) 38 = 42 := by
    unfold rewriteNote
    rw [if_pos (Or.inr ⟨rfl, hkey⟩)]
  refine ⟨?_, ?_, ?_, ?_, ?_, ?_⟩
  · rw [midiTick_noteOn_out, hrw46]
  · rw [midiTick_noteOn_arlBuffer, hrw46]
    exact dictLookup_set_self _ 42 _
  · rw [midiTick_noteOn_out, hrw38]
  · rw [midiTick_noteOn_arlBuffer, hrw38]
    exact dictLookup_set_self _ 42 _
  · rw [midiTick_noteOn_arlBuffer, hrw38]
    rw [dictLookup_set_other _ 42 _ 38 (by decide)]
    rw [dictLookup_decBuffer, h38]
    rfl
  · exact (midiTick_noteOn_other_menu st δ 38 (by decide)).2

theorem note_rewrite_aliasing_witness :
    (midiTick ⟨[(38, 1/25)], false, true, 0⟩ 0 (some (MidiMsg.noteOn 46))).2 =
        midiToKeyD 42 ∧
      dictLookup
          (midiTick ⟨[(38, 1/25)], false, true, 0⟩ 0
            (some (MidiMsg.noteOn 46))).1.arlBuffer 42 =
        some (holdDuration (midiToKeyD 42)) ∧
      (midiTick ⟨[(38, 1/25)], false, true, 0⟩ 0 (some (MidiMsg.noteOn 38))).2 =
        midiToKeyD 42 ∧
      dictLookup
          (midiTick ⟨[(38, 1/25)], false, true, 0⟩ 0
            (some (MidiMsg.noteOn 38))).1.arlBuffer 42 =
        some (holdDuration (midiToKeyD 42)) ∧
      dictLookup
          (midiTick ⟨[(38, 1/25)], false, true, 0⟩ 0
            (some (MidiMsg.noteOn 38))).1.arlBuffer 38 =
        some ((1 : ℚ)/25 - 0) ∧
      (midiTick ⟨[(38, 1/25)], false, true, 0⟩ 0
          (some (MidiMsg.noteOn 38))).1.menuCounter = 0 := by
  exact note_rewrite_aliasing ⟨[(38, 1/25)], false, true, 0⟩ 0 (1/25) rfl

/-- C2: in both dispatch loops, over any well-formed chain without an
`exit` token, the effects decompose per sub-command — so a malformed or
failing sub-command never aborts the rest of the chain; a sub-command
whose name is neither a built-in `cmd_` method, a registered command, nor
(controller variant) an available button produces only the
"not found" message; and a handler that raises has its exception caught
and printed. -/
theorem dispatch_error_isolation (env : DispatchEnv) (subs : List String)
    (c c' : String) (args args' : List String) (hd : Handler) (e : String)
    (hne : ∀ s ∈ subs, pyShlexSplit s ≠ [])
    (hx : ∀ s ∈ subs, (pyShlexSplit s).head? ≠ some "exit")
    (hb1 : lookupHandler env.builtins c = none)
    (hb2 : lookupHandler env.commands c = none)
    (hbtn : c ∉ env.availableButtons)
    (hraise : hd args' = Except.error e) :
    runChainBaseAux env subs =
        ChainOutcome.finished ((subs.map (subStepBase env)).flatten) ∧
      runChainCtrlAux env subs [] =
        ChainOutcome.finished
          ((subs.map (fun s => (subStepCtrl env s).1)).flatten ++
            pushTail ((subs.map (fun s => (subStepCtrl env s).2)).flatten)) ∧
      subCmdStepBase env c args = [Effect.printed (notFoundMsg c)] ∧
      subCmdStepCtrl env c args = ([Effect.printed (notFoundMsg c)], []) ∧
      handlerEffects c' args' hd = [Effect.invoked c' args', Effect.printed e] := by
  refine ⟨runChainBase_decomp subs env hne hx, ?_, ?_, ?_, ?_⟩
  · have h := runChainCtrl_decomp subs env [] hne hx
    rw [h, List.nil_append]
  · unfold subCmdStepBase
    rw [hb1, hb2]
  · unfold subCmdStepCtrl
    rw [hb1, hb2, if_neg hbtn]
  · unfold handlerEffects
    rw [hraise]

theorem dispatch_error_isolation_witness :
    runChainBaseAux
        ⟨[("greet", fun _ => Except.ok "hi")], [("boom", fun _ => Except.error "boom msg")],
          ["b"]⟩ ["boom", "nosuch", "greet me"] =
      ChainOutcome.finished
        ((["boom", "nosuch", "greet me"].map
            (subStepBase
              ⟨[("greet", fun _ => Except.ok "hi")],
                [("boom", fun _ => Except.error "boom msg")], ["b"]⟩)).flatten) ∧
    runChainCtrlAux
        ⟨[("greet", fun _ => Except.ok "hi")], [("boom", fun _ => Except.error "boom msg")],
          ["b"]⟩ ["boom", "nosuch", "greet me"] [] =
      ChainOutcome.finished
        ((["boom", "nosuch", "greet me"].map
            (fun s => (subStepCtrl
              ⟨[("greet", fun _ => Except.ok "hi")],
                [("boom", fun _ => Except.error "boom msg")], ["b"]⟩ s).1)).flatten ++
          pushTail ((["boom", "nosuch", "greet me"].map
            (fun s => (subStepCtrl
              ⟨[("greet", fun _ => Except.ok "hi")],
                [("boom", fun _ => Except.error "boom msg")], ["b"]⟩ s).2)).flatten)) ∧
    subCmdStepBase
        ⟨[("greet", fun _ => Except.ok "hi")], [("boom", fun _ => Except.error "boom msg")],
          ["b"]⟩ "nosuch" [] =
      [Effect.printed (notFoundMsg "nosuch")] ∧
    subCmdStepCtrl
        ⟨[("greet", fun _ => Except.ok "hi")], [("boom", fun _ => Except.error "boom msg")],
          ["b"]⟩ "nosuch" [] =
      ([Effect.printed (notFoundMsg "nosuch")], []) ∧
    handlerEffects "boom" [] (fun _ => Except.error "boom msg") =
      [Effect.invoked "boom" [], Effect.printed "boom msg"] := by
  exact dispatch_error_isolation
    ⟨[("greet", fun _ => Except.ok "hi")], [("boom", fun _ => Except.error "boom msg")],
      ["b"]⟩
    ["boom", "nosuch", "greet me"] "nosuch" "boom" [] [] (fun _ => Except.error "boom msg")
    "boom msg"
    (by intro s hs; fin_cases hs <;> decide)
    (by intro s hs; fin_cases hs <;> decide)
    rfl rfl (by decide) rfl

/-- C6: starting from a reset counter, eleven consecutive note-on events
for the designated menu note (48) toggle the menu-mode flag exactly once
— it is unchanged after every proper prefix of up to ten — and reset the
counter to zero; a note-on for any other note resets the counter to zero
without toggling the flag. -/
theorem menu_mode_toggle (st st' : MidiState) (evs : List (ℚ × Option MidiMsg))
    (k : Nat) (δ : ℚ) (m : Nat)
    (h48 : ∀ e ∈ evs, e.2 = some (MidiMsg.noteOn 48))
    (hlen : evs.length = 11)
    (hc : st.menuCounter = 0)
    (hk : k ≤ 10)
    (hm : m ≠ 48) :
    (midiRun st evs).1.menumode = !st.menumode ∧
      (midiRun st evs).1.menuCounter = 0 ∧
      (midiRun st (evs.take k)).1.menumode = st.menumode ∧
      (midiRun st (evs.take k)).1.menuCounter = k ∧
      (midiTick st' δ (some (MidiMsg.noteOn m))).1.menuCounter = 0 ∧
      (midiTick st' δ (some (MidiMsg.noteOn m))).1.menumode = st'.menumode := by
  have htoggle := midiRun_48_toggle evs st h48 (by omega) (by rw [hc, hlen])
  have htake48 : ∀ e ∈ evs.take k, e.2 = some (MidiMsg.noteOn 48) :=
    fun e he => h48 e (List.take_subset k evs he)
  have htklen : (evs.take k).length = k := by
    rw [List.length_take, hlen]
    omega
  have hbelow := midiRun_48_below (evs.take k) st htake48 (by rw [htklen, hc]; omega)
  have hother := midiTick_noteOn_other_menu st' δ m hm
  refine ⟨htoggle.1, htoggle.2, hbelow.1, ?_, hother.2, hother.1⟩
  rw [hbelow.2, htklen, hc, Nat.zero_add]

theorem menu_mode_toggle_witness :
    (midiRun initialMidiState
        (List.replicate 11 ((0 : ℚ), some (MidiMsg.noteOn 48)))).1.menumode = !true ∧
      (midiRun initialMidiState
        (List.replicate 11 ((0 : ℚ), some (MidiMsg.noteOn 48)))).1.menuCounter = 0 ∧
      (midiRun initialMidiState
        ((List.replicate 11 ((0 : ℚ), some (MidiMsg.noteOn 48))).take 10)).1.menumode =
        true ∧
      (midiRun initialMidiState
        ((List.replicate 11 ((0 : ℚ), some (MidiMsg.noteOn 48))).take 10)).1.menuCounter =
        10 ∧
      (midiTick initialMidiState 0 (some (MidiMsg.noteOn 40))).1.menuCounter = 0 ∧
      (midiTick initialMidiState 0 (some (MidiMsg.noteOn 40))).1.menumode = true := by
  exact menu_mode_toggle initialMidiState initialMidiState
    (List.replicate 11 ((0 : ℚ), some (MidiMsg.noteOn 48))) 10 0 40
    (by intro e he; rw [List.eq_of_mem_replicate he])
    (by rw [List.length_replicate]) rfl (by omega) (by decide)

/-- C7: in the controller dispatch loop, a token that is neither a
built-in `cmd_` method nor a registered command but is one of the
available buttons is accumulated instead of dispatched immediately, and
the whole accumulated list is forwarded in one `button_push` call after
the chain; in particular, input `a&&b` with `a` unknown and `b` an
available button prints the not-found message for `a` and still pushes
`b`. -/
theorem button_accumulation (env : DispatchEnv) (subs : List String)
    (c : String) (args : List String)
    (hne : ∀ s ∈ subs, pyShlexSplit s ≠ [])
    (hx : ∀ s ∈ subs, (pyShlexSplit s).head? ≠ some "exit")
    (hb1 : lookupHandler env.builtins c = none)
    (hb2 : lookupHandler env.commands c = none)
    (hbtn : c ∈ env.availableButtons) :
    subCmdStepCtrl env c args = ([], [c]) ∧
      runChainCtrlAux env subs [] =
        ChainOutcome.finished
          ((subs.map (fun s => (subStepCtrl env s).1)).flatten ++
            pushTail ((subs.map (fun s => (subStepCtrl env s).2)).flatten)) ∧
      runChainCtrl ⟨[("help", fun _ => Except.ok ""), ("stick", fun _ => Except.ok "")],
          [], ["b"]⟩ "a&&b" =
        ChainOutcome.finished
          [Effect.printed (notFoundMsg "a"), Effect.printed "button push",
            Effect.pushedButtons ["b"]] := by
  refine ⟨?_, ?_, ?_⟩
  · unfold subCmdStepCtrl
    rw [hb1, hb2, if_pos hbtn]
  · have h := runChainCtrl_decomp subs env [] hne hx
    rw [h, List.nil_append]
  · rfl

theorem button_accumulation_witness :
    subCmdStepCtrl ⟨[("help", fun _ => Except.ok ""), ("stick", fun _ => Except.ok "")],
        [], ["b"]⟩ "b" [] = ([], ["b"]) ∧
      runChainCtrlAux ⟨[("help", fun _ => Except.ok ""), ("stick", fun _ => Except.ok "")],
          [], ["b"]⟩ ["a", "b"] [] =
        ChainOutcome.finished
          ((["a", "b"].map
              (fun s => (subStepCtrl
                ⟨[("help", fun _ => Except.ok ""), ("stick", fun _ => Except.ok "")],
                  [], ["b"]⟩ s).1)).flatten ++
            pushTail ((["a", "b"].map
              (fun s => (subStepCtrl
                ⟨[("help", fun _ => Except.ok ""), ("stick", fun _ => Except.ok "")],
                  [], ["b"]⟩ s).2)).flatten)) ∧
      runChainCtrl ⟨[("help", fun _ => Except.ok ""), ("stick", fun _ => Except.ok "")],
          [], ["b"]⟩ "a&&b" =
        ChainOutcome.finished
          [Effect.printed (notFoundMsg "a"), Effect.printed "button push",
            Effect.pushedButtons ["b"]] := by
  exact button_accumulation
    ⟨[("help", fun _ => Except.ok ""), ("stick", fun _ => Except.ok "")], [], ["b"]⟩
    ["a", "b"] "b" []
    (by intro s hs; fin_cases hs <;> decide)
    (by intro s hs; fin_cases hs <;> decide)
    rfl rfl (by decide)

/-- C10: the MIDI loop starts with the menu-mode flag active
(`menumode = True`), the flag is preserved by every tick that is not an
eleventh-consecutive designated-note press, and while it is active every
synthesized chain is truncated to its first `&&`-separated action before
dispatch. -/
theorem menumode_startup_truncation (st : MidiState) (δ : ℚ) (n v : Nat)
    (s c : String) (rest : List String)
    (hsplit : pySplitOn s "&&" = c :: rest)
    (hmenu : st.menumode = true)
    (hn : n ≠ 48)
    (hcnt : st.menuCounter < 10) :
    initialMidiState.menumode = true ∧
      menuTruncate st.menumode s = c ∧
      (midiTick st δ none).1.menumode = true ∧
      (midiTick st δ (some (MidiMsg.controlChange v))).1.menumode = true ∧
      (midiTick st δ (some MidiMsg.otherEvent)).1.menumode = true ∧
      (midiTick st δ (some (MidiMsg.noteOn n))).1.menumode = true ∧
      (midiTick st δ (some (MidiMsg.noteOn 48))).1.menumode = true := by
  refine ⟨rfl, ?_, ?_, ?_, ?_, ?_, ?_⟩
  · rw [hmenu]
    unfold menuTruncate
    rw [if_pos rfl, hsplit]
    rfl
  · rw [(midiTick_none_menu st δ).1, hmenu]
  · rw [(midiTick_controlChange_menu st δ v).1, hmenu]
  · rw [(midiTick_otherEvent_menu st δ).1, hmenu]
  · rw [(midiTick_noteOn_other_menu st δ n hn).1, hmenu]
  · rw [(midiTick_noteOn48_menu st δ).1, if_neg (by omega), hmenu]

theorem menumode_startup_truncation_witness :
    initialMidiState.menumode = true ∧
      menuTruncate initialMidiState.menumode "hold a&&hold y" = "hold a" ∧
      (midiTick initialMidiState 0 none).1.menumode = true ∧
      (midiTick initialMidiState 0 (some (MidiMsg.controlChange 100))).1.menumode = true ∧
      (midiTick initialMidiState 0 (some MidiMsg.otherEvent)).1.menumode = true ∧
      (midiTick initialMidiState 0 (some (MidiMsg.noteOn 38))).1.menumode = true ∧
      (midiTick initialMidiState 0 (some (MidiMsg.noteOn 48))).1.menumode = true := by
  exact menumode_startup_truncation initialMidiState 0 38 100 "hold a&&hold y" "hold a"
    ["hold y"] (by decide) rfl (by decide) (by decide)

/-- C1 (amended): for a mapped note pressed into an empty hold buffer, a
quiet stretch (no further events) whose elapsed time reaches the note's
hold duration synthesizes exactly one release command and empties the
hold buffer; and for a mapped note other than 38, a repeated press while
the note is held re-emits the mapped press command and refreshes the
note's timer to its initial duration — no release is synthesized.  (For
note 38 the repeated press is rewritten to note 42 and 38's timer is not
refreshed.) -/
theorem debounce_hold_release (n : Nat) (cmd : String) (st stB : MidiState)
    (δ0 δ' r : ℚ) (evs : List (ℚ × Option MidiMsg))
    (hmap : midi_to_key n = some cmd)
    (hb : st.arlBuffer = [])
    (hδ0 : 0 ≤ δ0)
    (hnone : ∀ e ∈ evs, e.2 = none)
    (hpos : ∀ e ∈ evs, 0 ≤ e.1)
    (hsum : holdDuration cmd ≤ (evs.map Prod.fst).sum)
    (hbB : stB.arlBuffer = [(n, r)])
    (hδ' : 0 ≤ δ')
    (hlt : δ' < r) :
    (midiTick st δ0 (some (MidiMsg.noteOn n))).2 = cmd ∧
      (midiTick st δ0 (some (MidiMsg.noteOn n))).1.arlBuffer = [(n, holdDuration cmd)] ∧
      (midiRun (midiTick st δ0 (some (MidiMsg.noteOn n))).1 evs).1.arlBuffer = [] ∧
      (midiRun (midiTick st δ0 (some (MidiMsg.noteOn n))).1 evs).2.filter
          (fun s => decide (s ≠ "")) = [releaseFor cmd] ∧
      (n ≠ 38 →
        (midiTick stB δ' (some (MidiMsg.noteOn n))).1.arlBuffer =
            [(n, holdDuration cmd)] ∧
          (midiTick stB δ' (some (MidiMsg.noteOn n))).2 = cmd) := by
  have hmapD : midiToKeyD n = cmd := by
    unfold midiToKeyD
    rw [hmap]
    rfl
  have hrw : rewriteNote (decBuffer st.arlBuffer δ0) n = n := by
    refine rewriteNote_of_mapped _ n cmd hmap (fun _ => ?_)
    rw [hb]
    rfl
  have hout : (midiTick st δ0 (some (MidiMsg.noteOn n))).2 = cmd := by
    rw [midiTick_noteOn_out, hrw, hmapD]
  have hbuf1 : (midiTick st δ0 (some (MidiMsg.noteOn n))).1.arlBuffer =
      [(n, holdDuration cmd)] := by
    rw [midiTick_noteOn_arlBuffer, hrw, hmapD, hb]
    rfl
  have hne : releaseFor (midiToKeyD n) ≠ "" := by
    rw [hmapD]
    exact releaseFor_mapped_ne_empty n cmd hmap
  have hquiet := midiRun_quiet_release evs (midiTick st δ0 (some (MidiMsg.noteOn n))).1
    n (holdDuration cmd) hbuf1 hnone hpos (holdDuration_pos cmd)
    hsum hne
  refine ⟨hout, hbuf1, hquiet.1, by rw [hquiet.2, hmapD], ?_⟩
  intro hn38
  have hrwB : rewriteNote (decBuffer stB.arlBuffer δ') n = n := by
    refine rewriteNote_of_mapped _ n cmd hmap (fun h => absurd h hn38)
  refine ⟨?_, by rw [midiTick_noteOn_out, hrwB, hmapD]⟩
  rw [midiTick_noteOn_arlBuffer, hrwB, hmapD, hbB]
  rw [decBuffer_cons, decBuffer_nil]
  unfold dictSet
  rw [if_pos (by simp)]
  simp

/-- Counterexample to C1 as stated: a repeated press of note 38 while
note 38 is held (hold buffer `{38: 0.04}`, elapsed 0.01) does not refresh
38's timer — its entry decays to 0.03 instead of returning to the initial
duration 0.04 — and a hold of note 42 is started instead. -/
theorem debounce_claim_counterexample :
    dictLookup
        (midiTick ⟨[(38, 4/100)], false, true, 0⟩ (1/100)
          (some (MidiMsg.noteOn 38))).1.arlBuffer 38 = some (3/100) ∧
      (3 : ℚ)/100 ≠ holdDuration (midiToKeyD 38) ∧
      dictLookup
        (midiTick ⟨[(38, 4/100)], false, true, 0⟩ (1/100)
          (some (MidiMsg.noteOn 38))).1.arlBuffer 42 =
        some (holdDuration (midiToKeyD 42)) := by
  set st0 : MidiState := ⟨[(38, 4/100)], false, true, 0⟩ with hst0
  have hkey : dictHasKey (decBuffer st0.arlBuffer (1/100)) 38 = true := by
    rw [dictHasKey_decBuffer]
    rfl
  have hrw : rewriteNote (decBuffer st0.arlBuffer (1/100)) 38 = 42 := by
    unfold rewriteNote
    rw [if_pos (Or.inr ⟨rfl, hkey⟩)]
  refine ⟨?_, ?_, ?_⟩
  · rw [midiTick_noteOn_arlBuffer, hrw]
    rw [dictLookup_set_other _ 42 _ 38 (by decide)]
    rw [dictLookup_decBuffer]
    rw [show dictLookup st0.arlBuffer 38 = some (4/100) from rfl]
    norm_num
  · rw [show holdDuration (midiToKeyD 38) = 4/100 from rfl]
    norm_num
  · rw [midiTick_noteOn_arlBuffer, hrw]
    exact dictLookup_set_self _ 42 _

theorem debounce_hold_release_witness :
    (midiTick initialMidiState 0 (some (MidiMsg.noteOn 48))).2 = "hold x" ∧
      (midiTick initialMidiState 0 (some (MidiMsg.noteOn 48))).1.arlBuffer =
        [(48, holdDuration "hold x")] ∧
      (midiRun (midiTick initialMidiState 0 (some (MidiMsg.noteOn 48))).1
        [((1 : ℚ)/25, none)]).1.arlBuffer = [] ∧
      (midiRun (midiTick initialMidiState 0 (some (MidiMsg.noteOn 48))).1
          [((1 : ℚ)/25, none)]).2.filter (fun s => decide (s ≠ "")) =
        [releaseFor "hold x"] ∧
      (midiTick ⟨[(48, 1/50)], false, true, 0⟩ (1/100)
          (some (MidiMsg.noteOn 48))).1.arlBuffer = [(48, holdDuration "hold x")] ∧
      (midiTick ⟨[(48, 1/50)], false, true, 0⟩ (1/100)
          (some (MidiMsg.noteOn 48))).2 = "hold x" := by
  have h := debounce_hold_release 48 "hold x" initialMidiState
    ⟨[(48, 1/50)], false, true, 0⟩ 0 (1/100) (1/50) [((1 : ℚ)/25, none)]
    (by decide) rfl (by norm_num)
    (by intro e he; rw [List.mem_singleton] at he; rw [he])
    (by intro e he; rw [List.mem_singleton] at he; rw [he]; norm_num)
    (by rw [show holdDuration "hold x" = 4/100 from rfl]
        rw [List.map_cons, List.map_nil, List.sum_cons, List.sum_nil]
        norm_num)
    rfl (by norm_num) (by norm_num)
  exact ⟨h.1, h.2.1, h.2.2.1, h.2.2.2.1, (h.2.2.2.2 (by decide)).1,
    (h.2.2.2.2 (by decide)).2⟩

end SwitchMidi
